import Mathlib

/-!
Shallow embedding of the fastnbt/fastanvil decoding core
(src/fastnbt/src/{value,error,borrow}.rs and
src/fastanvil/src/{types.rs,java/pre18.rs}), with theorems settling the
frozen claims about it.  Rust machine integers are modelled as `Int`/`Nat`
with explicit two's-complement conversion where it matters; fallible code
returns `Option`/`Except`; interior mutability (`Cell`/`RefCell`) and
`&mut self` methods are modelled by explicit state passing.
-/

namespace Fastnbt

/-! ## Value model (src/fastnbt/src/value.rs)

The serde framework is external to this crate; its interaction with the
value model is the set of `visit_*` callbacks a registered visitor accepts.
A scalar visit event carries the wire width of the scalar the external
framework decoded. -/

/-- The six scalar wire widths of the NBT format. -/
inductive Width where
  | byte | short | int | long | float | double
deriving DecidableEq, Repr

/-- A scalar decode callback from the external framework: one `visit_*`
call. Integer payloads are the decoded value; float payloads are carried as
raw bit patterns (their numeric reading is irrelevant to the claims). -/
inductive VisitEvent where
  | vI8 (v : Int)
  | vI16 (v : Int)
  | vI32 (v : Int)
  | vI64 (v : Int)
  | vF32 (bits : Nat)
  | vF64 (bits : Nat)
deriving DecidableEq, Repr

/-- The wire width a visit event carries. -/
def eventWidth : VisitEvent → Width
  | .vI8 _ => .byte
  | .vI16 _ => .short
  | .vI32 _ => .int
  | .vI64 _ => .long
  | .vF32 _ => .float
  | .vF64 _ => .double

/-- `strict_i8` (value.rs:75): its `StrictI8Visitor` implements only
`visit_i8`; every other visit falls to serde's default, an error. -/
def strict_i8 : VisitEvent → Option Int
  | .vI8 v => some v
  | _ => none

/-- `strict_i16` (value.rs:98): only `visit_i16` is implemented. -/
def strict_i16 : VisitEvent → Option Int
  | .vI16 v => some v
  | _ => none

/-- `strict_i32` (value.rs:121): only `visit_i32` is implemented. -/
def strict_i32 : VisitEvent → Option Int
  | .vI32 v => some v
  | _ => none

/-- The per-width strict decode hook the `Value`/`BorrowedValue` enums
register through `#[serde(deserialize_with = ...)]` (value.rs:32-40,52-60):
`Byte`, `Short` and `Int` carry `strict_i8`/`strict_i16`/`strict_i32`;
`Long`, `Float` and `Double` carry no such attribute and use the
framework's default decoding. -/
def strictHook : Width → Option (VisitEvent → Option Int)
  | .byte => some strict_i8
  | .short => some strict_i16
  | .int => some strict_i32
  | .long => none
  | .float => none
  | .double => none

/-- `Value` (value.rs:31): the owning NBT value. `Compound`'s `HashMap` is
modelled as an association list; float payloads are raw bit patterns. -/
inductive Value where
  | byte (v : Int)
  | short (v : Int)
  | int (v : Int)
  | long (v : Int)
  | double (bits : Nat)
  | float (bits : Nat)
  | string (s : String)
  | byteArray (data : List Int)
  | intArray (data : List Int)
  | longArray (data : List Int)
  | list (elems : List Value)
  | compound (entries : List (String × Value))

/-! ## Error taxonomy (src/fastnbt/src/error.rs) -/

/-- The 1-byte NBT type tags (`crate::Tag`). Modelled from the spec: the
`Tag` enum itself is not among the staged files; §6 lists the tags
(an explicit end tag plus the twelve value tags). -/
inductive Tag where
  | endTag | byte | short | int | long | float | double
  | byteArray | string | list | compound | intArray | longArray
deriving DecidableEq, Repr

/-- `Error` (error.rs:7): the deserializer's failure enum, one constructor
per variant. The `Arc<std::io::Error>` payload is external to the crate and
modelled as an opaque numeric handle (the `Arc` makes it cloneable). -/
inductive Error where
  | invalidTag (tag : Nat)
  | invalidSize (size : Int)
  | noRootCompound
  | nonUnicodeString (data : List Nat)
  | unexpectedTag (tag : Tag) (expected : String)
  | unexpectedList (elemTag : Tag) (size : Int) (expected : String)
  | unexpectedEof
  | ioError (handle : Nat)
  | other (msg : String)
  | custom (msg : String)
  | expectedListFoundCompount (currentTag : Option Tag)
  | badArrayLength (len : Int)
deriving DecidableEq, Repr

/-- True exactly on the nine failure kinds the spec's taxonomy (§4.1)
lists: invalid-tag, invalid-size, missing-root-compound,
non-unicode-string, unexpected-tag, unexpected-list,
unexpected-end-of-input, wrapped-I/O-failure, and the generic message kind
backing serde's custom-error hook (`Error::Custom`). -/
def Error.isListedKind : Error → Bool
  | .invalidTag _ => true
  | .invalidSize _ => true
  | .noRootCompound => true
  | .nonUnicodeString _ => true
  | .unexpectedTag _ _ => true
  | .unexpectedList _ _ _ => true
  | .unexpectedEof => true
  | .ioError _ => true
  | .custom _ => true
  | .other _ => false
  | .expectedListFoundCompount _ => false
  | .badArrayLength _ => false

/-- True exactly on the three variants of `Error` the spec's taxonomy does
not list: `Other`, `ExpectedListFoundCompount` and `BadArrayLength`. -/
def Error.isExtraKind : Error → Bool
  | .other _ => true
  | .expectedListFoundCompount _ => true
  | .badArrayLength _ => true
  | _ => false

/-! ## Borrowed-array codec (src/fastnbt/src/borrow.rs)

Each view holds a reference to a raw byte range (`data: &'a [u8]`),
modelled as a `List Nat` of bytes.  `iter()` copies the view, and `next()`
reads one fixed-width big-endian element from the front of the remaining
range via byteorder's `read_i8`/`read_i32`/`read_i64`, which fail (and the
`.ok()` turns the failure into `None`) when fewer bytes remain than the
element needs. The functions below produce the full yielded sequence. -/

/-- Two's-complement reading of a `w`-bit big-endian magnitude. -/
def toSigned (w : Nat) (n : Nat) : Int :=
  if n % 2 ^ w < 2 ^ (w - 1) then (n % 2 ^ w : Int) else (n % 2 ^ w : Int) - 2 ^ w

/-- The sequence `ByteIter` (borrow.rs:68) yields: one `i8` per byte. -/
def byteIterList : List Nat → List Int
  | [] => []
  | b :: rest => toSigned 8 b :: byteIterList rest

/-- The sequence `IntIter` (borrow.rs:94) yields: big-endian `i32`s while
four bytes remain; a short trailing read ends the sequence. -/
def intIterList : List Nat → List Int
  | b0 :: b1 :: b2 :: b3 :: rest =>
      toSigned 32 (((b0 * 256 + b1) * 256 + b2) * 256 + b3) :: intIterList rest
  | _ => []

/-- The sequence `LongIter` (borrow.rs:120) yields: big-endian `i64`s while
eight bytes remain; a short trailing read ends the sequence. -/
def longIterList : List Nat → List Int
  | b0 :: b1 :: b2 :: b3 :: b4 :: b5 :: b6 :: b7 :: rest =>
      toSigned 64
        (((((((b0 * 256 + b1) * 256 + b2) * 256 + b3) * 256 + b4) * 256 + b5)
          * 256 + b6) * 256 + b7) :: longIterList rest
  | _ => []

/-- byteorder's `read_i32::<BigEndian>` on a byte slice: `some` of the
big-endian signed 32-bit value of the first four bytes, `none` when fewer
than four bytes remain. -/
def readBEi32 : List Nat → Option Int
  | b0 :: b1 :: b2 :: b3 :: _ =>
      some (toSigned 32 (((b0 * 256 + b1) * 256 + b2) * 256 + b3))
  | _ => none

end Fastnbt

namespace Fastanvil

open Fastnbt (toSigned readBEi32)

/-! ## String comparison

Rust compares `&str` lexicographically by UTF-8 bytes; UTF-8 preserves
code-point order, so this is lexicographic comparison of the character
sequences. Lean's own `String.ltb` is defined by well-founded recursion
and does not kernel-reduce, so the comparison is given structurally. -/

/-- Strict lexicographic order on character lists, by code point. -/
def lexLtB : List Char → List Char → Bool
  | [], [] => false
  | [], _ :: _ => true
  | _ :: _, [] => false
  | a :: as, b :: bs => a.toNat < b.toNat || (a == b && lexLtB as bs)

/-- Rust's `&str` strict order. -/
def strLtB (a b : String) : Bool := lexLtB a.data b.data

/-- Rust's `&str` non-strict order. -/
def strLeB (a b : String) : Bool := !strLtB b a

/-- The pair order `Vec::sort` uses on `(&&str, &&str)`: by key, then by
value. -/
def pairLeB (p q : String × String) : Bool :=
  strLtB p.1 q.1 || (p.1 == q.1 && strLeB p.2 q.2)

/-! ## Block descriptors (src/fastanvil/src/types.rs:86 `Block`)

The borrowing `types.rs` `Block` and the owned crate-level `Block` the
pre-1.18 palette holds are structurally the same descriptor: a namespaced
name and a property map. The `HashMap` property map is modelled as an
association list with distinct keys; `encoded_description` sorts the
entries it iterates, so the list order never shows in its result. -/

structure Block where
  name : String
  properties : List (String × String)
deriving DecidableEq, Repr

/-- Modelled from the spec: the fixed air block `crate::java::AIR`
(pre18.rs returns it for a section with no packed data) is not among the
staged files; §4.5 calls it "one fixed air block" and §5's air-like name
set contains `minecraft:air`. -/
def AIR : Block := ⟨"minecraft:air", []⟩

/-- `p.1 + "=" + p.2` for one property (types.rs:241). -/
def renderProp (p : String × String) : String := p.1 ++ "=" ++ p.2

/-- The property list `encoded_description` renders: the properties minus
`waterlogged`, sorted (types.rs:231-238). -/
def encodedProps (b : Block) : List (String × String) :=
  (b.properties.filter (fun p => !(p.1 == "waterlogged"))).mergeSort pairLeB

/-- `Block::encoded_description` (types.rs:227): the name, `|`, then the
sorted filtered `key=value` pairs joined by `,` (the source's
separator-carrying fold is the `,`-intercalation of the rendered pairs). -/
def encoded_description (b : Block) : String :=
  b.name ++ "|" ++ String.intercalate "," ((encodedProps b).map renderProp)

/-! ## Bit-packing codec

`PackedBits`, `bits_per_block` and `expand_heightmap` live in the crate
root, which is not among the staged files; they are modelled from the
spec (§4.4). -/

/-- The smallest `B` with `2 ^ B ≥ n` (bounded search so that it
kernel-reduces; `n` never exceeds a palette length). -/
def ceilLog2 (n : Nat) : Nat :=
  (((List.range 64).find? (fun b => decide (n ≤ 2 ^ b))).getD 64)

/-- Modelled from the spec: `bits_per_block` (crate root, not staged) —
§4.4: "B = smallest integer with 2^B ≥ palette length, floored at a
documented minimum — commonly 4". -/
def bits_per_block (palLen : Nat) : Nat := max 4 (ceilLog2 palLen)

/-- Bit `i` of the bit stream formed by the packed 64-bit words, least
significant bit of word `i / 64` first. Bits past the data are 0. -/
def streamBit (words : List Nat) (i : Nat) : Nat :=
  (words.getD (i / 64) 0) / 2 ^ (i % 64) % 2

/-- Field `idx` of `bits` bits each, read from the packed word stream. -/
def fieldAt (words : List Nat) (bits idx : Nat) : Nat :=
  ((List.range bits).map (fun j => streamBit words (idx * bits + j) * 2 ^ j)).sum

/-- Modelled from the spec: `PackedBits::unpack_blockstates` (crate root,
not staged) — §4.4: `N = 4096` B-bit fields packed into 64-bit words,
rendered here under convention (i), a field straddling a word boundary
spilling into the next word; result addressed as
`(y_in_section*16 + z)*16 + x`. -/
def unpackBlockstates (bits : Nat) (words : List Nat) : List Nat :=
  (List.range 4096).map (fun i => fieldAt words bits i)

/-- Modelled from the spec: `expand_heightmap` (crate root, not staged) —
§4.5: trust mode "re-expands its packed bits against the chunk's minimum
vertical index and schema version" into the fixed 256-entry per-column
array (§4.4). The version-dependent packing convention is rendered as
convention (i) with the conventional 9-bit height fields. -/
def expandHeightmap (packed : List Nat) (yMin : Int) (_dataVersion : Int) : List Int :=
  (List.range 256).map (fun i => (fieldAt packed 9 i : Int) + yMin)

/-- Modelled from the spec: the biome-code enumeration and its reverse
lookup are out of scope (§1, external collaborator). `Biome::try_from`
is modelled as the injective stand-in accepting every code, so a biome
is identified with its raw `i32` code; the claims settled here concern
the addressing upstream of this lookup, which applies it uniformly to
whatever code was read. -/
def biomeTryFrom (code : Int) : Option Int := some code

/-! ## The borrowing chunk (src/fastanvil/src/types.rs)

`Chunk::block` and `Chunk::get_section_for_y` take `&mut self`; they are
modelled as state-passing functions returning the result together with the
updated chunk. `PackedBits<'a>` payloads are the packed 64-bit words,
`[u16; 4096]` buffers are `List Nat`, and the `HashMap<i8, usize>` section
map is an association list with overwrite-on-insert. Array indexing that
the source would panic on (an index past a fixed-size buffer) is modelled
with a 0 default; every claim below stays in range. -/

structure TSection where
  y : Int
  block_states : Option (List Nat)
  palette : List Block
  unpacked_states : Option (List Nat)
deriving Repr

structure THeightmaps where
  motion_blocking : Option (List Nat)
  motion_blocking_no_leaves : Option (List Nat)
  ocean_floor : Option (List Nat)
  world_surface : Option (List Nat)
  unpacked_motion_blocking : Option (List Nat)
deriving Repr

structure TLevel where
  x_pos : Int
  z_pos : Int
  biomes : Option (List Nat)
  heightmaps : Option THeightmaps
  old_heightmap : Option (List Int)
  sections : Option (List TSection)
  status : String
  sec_map : List (Int × Nat)
deriving Repr

structure TChunk where
  data_version : Int
  level : TLevel
deriving Repr

/-- `HashMap::insert`: overwrite the key's entry or add one. -/
def mapInsert (m : List (Int × Nat)) (k : Int) (v : Nat) : List (Int × Nat) :=
  (k, v) :: m.filter (fun p => !(p.1 == k))

/-- `HashMap::get`. -/
def mapGet? (m : List (Int × Nat)) (k : Int) : Option Nat :=
  (m.find? (fun p => p.1 == k)).map (·.2)

/-- `Chunk::calculate_sec_map` (types.rs:197): insert `(sec.y, i)` for each
enumerated section. -/
def calcSecMap (secs : List TSection) : List (Int × Nat) :=
  secs.enum.foldl (fun m p => mapInsert m p.2.y p.1) []

/-- `containing_section_y as i8`: the `usize → i8` truncating cast. -/
def toI8 (n : Nat) : Int := toSigned 8 n

/-- `Chunk::get_section_for_y` (types.rs:205): empty/absent section list is
a miss; the section map is computed on first use; the candidate index is
`y / 16` cast to `i8`; the final `get_mut` is a direct index lookup. The
found section is returned as its index into the section list. -/
def tGetSectionForY (c : TChunk) (y : Nat) : Option Nat × TChunk :=
  match c.level.sections with
  | none => (none, c)
  | some secs =>
    if secs.isEmpty then (none, c)
    else
      let c :=
        if c.level.sec_map.isEmpty then
          { c with level := { c.level with sec_map := calcSecMap secs } }
        else c
      match mapGet? c.level.sec_map (toI8 (y / 16)) with
      | none => (none, c)
      | some si =>
          match secs.get? si with
          | some _ => (some si, c)
          | none => (none, c)

/-- Replace section `si` of the chunk. -/
def setTSection (c : TChunk) (si : Nat) (sec : TSection) : TChunk :=
  { c with level :=
      { c.level with sections := (c.level.sections.getD []).set si sec } }

/-- `Chunk::block` (types.rs:125). Mirrors the source's order of effects:
when `unpacked_states` is absent it is first set to a zeroed buffer, and
only then is `block_states` consulted — its absence returns `None` with
the zeroed buffer left in place. -/
def tblock (c : TChunk) (x y z : Nat) : Option Block × TChunk :=
  match tGetSectionForY c y with
  | (none, c') => (none, c')
  | (some si, c') =>
    match (c'.level.sections.getD []).get? si with
    | none => (none, c')
    | some sec =>
      let secY := y - sec.y.toNat * 16
      let stateIndex := secY * 16 * 16 + z * 16 + x
      match sec.unpacked_states with
      | none =>
        (match sec.block_states with
         | none =>
             (none, setTSection c' si
                { sec with unpacked_states := some (List.replicate 4096 0) })
         | some pb =>
             let bitsPerItem := bits_per_block sec.palette.length
             let unp := unpackBlockstates bitsPerItem pb
             let sec' := { sec with unpacked_states := some unp }
             (sec'.palette.get? (unp.getD stateIndex 0), setTSection c' si sec'))
      | some unp =>
          (sec.palette.get? (unp.getD stateIndex 0), c')

/-- `Chunk::biome_of` (types.rs:170): dispatch on the raw byte buffer's
length; `_y` is ignored; the code is read big-endian at the computed byte
offset and mapped through the external biome lookup. -/
def tbiomeOf (c : TChunk) (x : Nat) (_y : Nat) (z : Nat) : Option Int :=
  match c.level.biomes with
  | none => none
  | some biomes =>
    if biomes.length = 1024 * 4 then
      let i := 4 * ((z / 4) * 4 + x / 4)
      (readBEi32 (biomes.drop i)).bind biomeTryFrom
    else if biomes.length = 256 * 4 then
      let i := 4 * (z * 16 + x)
      (readBEi32 (biomes.drop i)).bind biomeTryFrom
    else none

/-! ## The pre-1.18 chunk (src/fastanvil/src/java/pre18.rs) -/

/-- `Pre18Blockstates` (pre18.rs:195): a `Cell<bool>` done flag, a
`RefCell<[u16; 4096]>` cache and the packed words. Deserialization
(pre18.rs:221) always produces `done = false` with a zeroed cache. -/
structure P18Blockstates where
  done : Bool
  unpacked : List Nat
  packed : List Nat
deriving Repr

structure P18Section where
  y : Int
  block_states : Option P18Blockstates
  palette : List Block
deriving Repr

/-- `SectionLike::is_terminator` for `Pre18Section` (pre18.rs:185). -/
def P18Section.is_terminator (s : P18Section) : Bool :=
  s.palette.isEmpty && s.block_states.isNone

/-- Modelled from the spec: `SectionTower` (crate root, not staged) — §3:
an ordered collection of sections for one chunk, exposing
"section containing world-y" lookup and the min/max world-y spanned;
terminator sections are sentinels "skipped when scanning, not treated as
air". -/
structure SectionTower where
  sections : List P18Section
deriving Repr

/-- Modelled from the spec: tower lookup (§4.5) "divides queried world-y by
16 for a candidate section index and does a direct index lookup; an absent
section is simply a miss", with terminator sections skipped (§3). -/
def SectionTower.get_section_for_y (t : SectionTower) (y : Int) : Option P18Section :=
  t.sections.find? (fun s => !s.is_terminator && s.y == Int.fdiv y 16)

/-- Modelled from the spec: the least world-y the tower's sections span
(0 for an empty tower). -/
def SectionTower.y_min (t : SectionTower) : Int :=
  match (t.sections.filter (fun s => !s.is_terminator)).map (·.y) with
  | [] => 0
  | y :: ys => 16 * ys.foldl min y

/-- Modelled from the spec: one past the greatest world-y the tower's
sections span (0 for an empty tower). -/
def SectionTower.y_max (t : SectionTower) : Int :=
  match (t.sections.filter (fun s => !s.is_terminator)).map (·.y) with
  | [] => 0
  | y :: ys => 16 * (ys.foldl max y + 1)

/-- Modelled from the spec: the crate-root `Heightmaps` the pre-1.18
`Level` holds (not staged); the trust branch reads its
`motion_blocking` packed bits (pre18.rs:126). -/
structure JHeightmaps where
  motion_blocking : Option (List Nat)
deriving Repr

/-- `Level` (pre18.rs:90). The `RefCell<Option<[i16; 256]>>` lazy height
map is an `Option (List Int)` field updated by state passing. -/
structure JLevel where
  x_pos : Int
  z_pos : Int
  biomes : Option (List Int)
  sections : Option SectionTower
  heightmaps : Option JHeightmaps
  status : String
  lazy_heightmap : Option (List Int)
deriving Repr

/-- `JavaChunk` (pre18.rs:15). -/
structure JavaChunk where
  data_version : Int
  level : JLevel
deriving Repr

/-- `HeightMode` (crate root): `Trust` reads the game-maintained height
map when present, `Calculate` always recomputes. -/
inductive HeightMode where
  | trust | calculate
deriving DecidableEq, Repr

/-- `Pre18Blockstates::state` (pre18.rs:203) as the value it returns: on
first use (`done = false`) it unpacks the packed words with
`bits_per_block(pal_len)` bits per item and caches the result, afterwards
it reads the cache; the cache write never changes the value read, so the
interior mutation is observationally pure and modelled away. -/
def P18Blockstates.state (bs : P18Blockstates) (x secY z palLen : Nat) : Nat :=
  let arr := if bs.done then bs.unpacked
             else unpackBlockstates (bits_per_block palLen) bs.packed
  arr.getD (secY * 16 * 16 + z * 16 + x) 0

/-- `JavaChunk::block` (pre18.rs:61): locate the containing section via the
tower; absent block states mean the whole section is the fixed air block;
otherwise look the packed index up in the palette, a miss giving `None`. -/
def jblock (c : JavaChunk) (x : Nat) (y : Int) (z : Nat) : Option Block :=
  match c.level.sections with
  | none => none
  | some tower =>
    match tower.get_section_for_y y with
    | none => none
    | some sec =>
      match sec.block_states with
      | none => some AIR
      | some bs =>
        let secY := (y - sec.y * 16).toNat
        sec.palette.get? (bs.state x secY z sec.palette.length)

/-- `JavaChunk::y_range` (pre18.rs:76), as the pair (start, end). -/
def jyRange (c : JavaChunk) : Int × Int :=
  match c.level.sections with
  | some t => (t.y_min, t.y_max)
  | none => (0, 0)

/-- Rust's `Int::clamp` (panics when `lo > hi`; no claim reaches that). -/
def clampInt (v lo hi : Int) : Int := max lo (min v hi)

/-- `JavaChunk::biome` (pre18.rs:33): a 256-entry biome array is the
one-int-per-column layout indexed `z*16 + x`; any other length is the
4×4×4-cube layout indexed `(z/4)*4 + (x/4) + (y_shifted/4)*16` where
`y_shifted` is the queried y clamped into the chunk's vertical span and
shifted by its start. -/
def jbiome (c : JavaChunk) (x : Nat) (y : Int) (z : Nat) : Option Int :=
  match c.level.biomes with
  | none => none
  | some biomes =>
    if biomes.length = 16 * 16 then
      (biomes.get? (z * 16 + x)).bind biomeTryFrom
    else
      let r := jyRange c
      let yShifted := (clampInt y r.1 (r.2 - 1) - r.1).toNat
      let i := (z / 4) * 4 + x / 4 + yShifted / 4 * 16
      (biomes.get? i).bind biomeTryFrom

/-- The integers `[a, b)`, ascending: Rust's `a..b` iteration. -/
def intList (a b : Int) : List Int :=
  (List.range (b - a).toNat).map (fun k : Nat => a + (k : Int))

/-- The air-like name set of the height scan (pre18.rs:157). -/
def airNames : List String := ["minecraft:air", "minecraft:cave_air"]

/-- The column scan's stop test applied to the block at world-y `y`
(pre18.rs:151-160): the block exists and its name is not air-like. -/
def blockHit (c : JavaChunk) (x z : Nat) (y : Int) : Bool :=
  match jblock c x y z with
  | none => false
  | some b => !airNames.contains b.name

/-- One step of the calculate-mode column scan (pre18.rs:149-164): at loop
index `i` the scan queries the block at `y - 1` for `y = y_end - i` and
stops when it passes the stop test. -/
def surfaceHit (c : JavaChunk) (x z : Nat) (y : Int) : Bool :=
  blockHit c x z (y - 1)

/-- The calculate-mode height of column `(x, z)` (pre18.rs:146-166): scan
`i` over the chunk's `y_range`, record `y_end - i` for the first hit, 0
when no block of the column passes the test. -/
def scanColumn (c : JavaChunk) (x z : Nat) : Int :=
  match (intList (jyRange c).1 (jyRange c).2).find?
      (fun i => surfaceHit c x z ((jyRange c).2 - i)) with
  | some i => (jyRange c).2 - i
  | none => 0

/-- What the calculate-mode scan actually computes per column, stated over
world-y coordinates: query the blocks at world-ys
`y_max - y_min - 1, ..., 1, 0` — the chunk's vertical span relocated to
start at world-y 0 — and record one above the first queried y whose block
exists and is not air-like, 0 when none is. -/
def amendedColumnHeight (c : JavaChunk) (x z : Nat) : Int :=
  match ((List.range ((jyRange c).2 - (jyRange c).1).toNat).map
      (fun k : Nat => (jyRange c).2 - (jyRange c).1 - 1 - (k : Int))).find?
      (fun y => blockHit c x z y) with
  | some y => y + 1
  | none => 0

/-- Formalisation of the claim's wording for C5: calculate mode scans the
column top-down across the chunk's vertical span `[y_min, y_max)` and
returns the first world-y whose block exists and whose name is not in the
air-like set, defaulting to 0 when no such block is found. -/
def claimCalcHeight (c : JavaChunk) (x z : Nat) : Int :=
  match ((intList (jyRange c).1 (jyRange c).2).reverse).find?
      (fun y => blockHit c x z y) with
  | some y => y
  | none => 0

/-- The 256-entry map the calculate branch builds, entry `z*16 + x` being
column `(x, z)`'s scan result. -/
def calcHeightmap (c : JavaChunk) : List Int :=
  (List.range 256).map (fun idx => scanColumn c (idx % 16) (idx / 16))

/-- Replace the chunk's lazy height map. -/
def setLazy (c : JavaChunk) (m : Option (List Int)) : JavaChunk :=
  { c with level := { c.level with lazy_heightmap := m } }

/-- `JavaChunk::recalculate_heightmap` (pre18.rs:114). The trust branch's
`self.level.sections.as_ref().unwrap()` (pre18.rs:129) panics when the
height maps are present but the section list is absent; a panic is the
`Except.error` case. -/
def recalculateHeightmap (c : JavaChunk) (mode : HeightMode) :
    Except String JavaChunk :=
  match mode with
  | .trust =>
    match c.level.heightmaps.bind (fun hm => hm.motion_blocking) with
    | some hm =>
      match c.level.sections with
      | none => .error "called Option::unwrap() on a None value"
      | some tower =>
          .ok (setLazy c (some (expandHeightmap hm tower.y_min c.data_version)))
    | none => .ok (setLazy c (some (calcHeightmap c)))
  | .calculate => .ok (setLazy c (some (calcHeightmap c)))

/-- `JavaChunk::surface_height` (pre18.rs:25): recompute the lazy height
map only when it is absent, then read the cached map's entry `z*16 + x`
(the final `unwrap` panics were the map still absent). -/
def jsurfaceHeight (c : JavaChunk) (x z : Nat) (mode : HeightMode) :
    Except String (Int × JavaChunk) := do
  let c' ← if c.level.lazy_heightmap.isNone then recalculateHeightmap c mode
           else .ok c
  match c'.level.lazy_heightmap with
  | some m => .ok (m.getD (z * 16 + x) 0, c')
  | none => .error "called Option::unwrap() on a None value"

/-! ## Claim-side definitions and concrete inputs -/

/-- Formalisation of the claim's wording for C6: the length-4096 big-endian
32-bit byte-stream biome variant read with the same y-dependent cube
address as the pre-decoded-array variant, `(z/4)*4 + (x/4) + (y/4)*16`. -/
def claimByteStreamBiome (bytes : List Nat) (x y z : Nat) : Option Int :=
  (readBEi32 (bytes.drop (4 * ((z / 4) * 4 + x / 4 + y / 4 * 16)))).bind biomeTryFrom

/-- A stone block descriptor. -/
def stoneBlock : Block := ⟨"minecraft:stone", []⟩

/-- A borrowing chunk with one section (at section-y 0) that has a
palette but no `block_states`, its caches unpopulated. -/
def sectionNoStatesChunk : TChunk :=
  { data_version := 2230
    level :=
      { x_pos := 0, z_pos := 0, biomes := none, heightmaps := none
        old_heightmap := none
        sections := some [⟨0, none, [stoneBlock], none⟩]
        status := "full", sec_map := [] } }

/-- The C9 example descriptor: `minecraft:door` with properties
`{facing: north, waterlogged: true}`. -/
def doorBlock : Block :=
  ⟨"minecraft:door", [("facing", "north"), ("waterlogged", "true")]⟩

/-- A pre-1.18 chunk whose only section sits at section-y `-1` (world-ys
`[-16, 0)`) and is filled with stone: the palette is `[stone]` and the
packed words are all-zero, so every packed index resolves to the stone
entry. -/
def negativeSpanChunk : JavaChunk :=
  { data_version := 2230
    level :=
      { x_pos := 0, z_pos := 0, biomes := none
        sections := some ⟨[⟨-1, some ⟨false, List.replicate 4096 0, []⟩, [stoneBlock]⟩]⟩
        heightmaps := none, status := "full", lazy_heightmap := none } }

/-- A 4096-byte biome buffer whose cube 0 holds code 1 and whose cube 16
(the cube the claim's `(y/4)*16` term selects for `x = z = 0`, `y = 4`)
holds code 2; every other cube holds 0. -/
def cubeBiomeBytes : List Nat :=
  ([0, 0, 0, 1] ++ List.replicate 60 0) ++ ([0, 0, 0, 2] ++ List.replicate 4028 0)

/-- A borrowing chunk carrying `cubeBiomeBytes` as its raw biome buffer and
one (empty) section at section-y 0, so its vertical span contains `y = 4`. -/
def cubeBiomeChunk : TChunk :=
  { data_version := 2566
    level :=
      { x_pos := 0, z_pos := 0, biomes := some cubeBiomeBytes
        heightmaps := none, old_heightmap := none
        sections := some [⟨0, none, [], none⟩]
        status := "full", sec_map := [] } }

/-- A pre-1.18 chunk whose height maps (with `motion_blocking`) are present
while its section list is absent. -/
def heightmapsNoSectionsChunk : JavaChunk :=
  { data_version := 2230
    level :=
      { x_pos := 0, z_pos := 0, biomes := none, sections := none
        heightmaps := some ⟨some []⟩, status := "empty"
        lazy_heightmap := none } }

end Fastanvil

/-! # Theorems -/

namespace Fastnbt

theorem byteIterList_length (l : List Nat) : (byteIterList l).length = l.length := by
  induction l with
  | nil => rfl
  | cons b rest ih => simp [byteIterList, ih]

theorem intIterList_length : ∀ l : List Nat, (intIterList l).length = l.length / 4
  | _ :: _ :: _ :: _ :: rest => by
      have ih := intIterList_length rest
      simp only [intIterList, List.length_cons, ih]
      omega
  | [] => by simp [intIterList]
  | [_] => by simp [intIterList]
  | [_, _] => by simp [intIterList]
  | [_, _, _] => by simp [intIterList]

theorem longIterList_length : ∀ l : List Nat, (longIterList l).length = l.length / 8
  | _ :: _ :: _ :: _ :: _ :: _ :: _ :: _ :: rest => by
      have ih := longIterList_length rest
      simp only [longIterList, List.length_cons, ih]
      omega
  | [] => by simp [longIterList]
  | [_] => by simp [longIterList]
  | [_, _] => by simp [longIterList]
  | [_, _, _] => by simp [longIterList]
  | [_, _, _, _] => by simp [longIterList]
  | [_, _, _, _, _] => by simp [longIterList]
  | [_, _, _, _, _, _] => by simp [longIterList]
  | [_, _, _, _, _, _, _] => by simp [longIterList]

/-- Claim C3: for every borrowed array view over a byte range too short for
its declared element count, iteration is infallible — the yielded sequence
is a (finite, error-free) list holding exactly one element per whole
fixed-width big-endian element available in the range, so at most the
declared count, and a range shorter than one element yields nothing: the
short trailing read silently ends the sequence. -/
theorem c3_borrowed_iteration_infallible :
    (∀ l : List Nat, (byteIterList l).length = l.length / 1) ∧
    (∀ l : List Nat, (intIterList l).length = l.length / 4) ∧
    (∀ l : List Nat, (longIterList l).length = l.length / 8) ∧
    (∀ l : List Nat, l.length < 4 → intIterList l = []) ∧
    (∀ l : List Nat, l.length < 8 → longIterList l = []) := by
  refine ⟨fun l => by simp [byteIterList_length], intIterList_length,
    longIterList_length, fun l h => ?_, fun l h => ?_⟩
  · have := intIterList_length l
    have hz : l.length / 4 = 0 := Nat.div_eq_of_lt h
    exact List.eq_nil_of_length_eq_zero (by omega)
  · have := longIterList_length l
    have hz : l.length / 8 = 0 := Nat.div_eq_of_lt h
    exact List.eq_nil_of_length_eq_zero (by omega)

/-- Claim C1 counterexample: the value model registers no strict decode
hook for the 64-bit integer width — `Value::Long` carries no
`deserialize_with` attribute — refuting "for every scalar wire width the
value model registers a decode hook that accepts only input of exactly
that width". -/
theorem c1_counterexample_no_strict_long_hook :
    (strictHook Width.long).isSome = false := rfl

/-- Claim C1 as amended: strict decode hooks exist exactly for the 8-, 16-
and 32-bit integer widths, each accepting a visit of exactly its width and
rejecting every other; the 64-bit integer and both float widths carry no
strict hook and use the framework's default decoding; and distinct width
tags still never equal-compare — `Value::Short(n)` is never equal to
`Value::Int(n)`. -/
theorem c1_amended_strict_hooks :
    (strictHook Width.byte = some strict_i8 ∧
      ∀ e : VisitEvent, (strict_i8 e).isSome = true ↔ eventWidth e = Width.byte) ∧
    (strictHook Width.short = some strict_i16 ∧
      ∀ e : VisitEvent, (strict_i16 e).isSome = true ↔ eventWidth e = Width.short) ∧
    (strictHook Width.int = some strict_i32 ∧
      ∀ e : VisitEvent, (strict_i32 e).isSome = true ↔ eventWidth e = Width.int) ∧
    strictHook Width.long = none ∧
    strictHook Width.float = none ∧
    strictHook Width.double = none ∧
    ∀ n : Int, Value.short n ≠ Value.int n := by
  refine ⟨⟨rfl, fun e => ?_⟩, ⟨rfl, fun e => ?_⟩, ⟨rfl, fun e => ?_⟩,
    rfl, rfl, rfl, fun n h => Value.noConfusion h⟩ <;>
    cases e <;> simp [strict_i8, strict_i16, strict_i32, eventWidth]

/-- Claim C8 counterexample: `Error::BadArrayLength` is a variant of the
deserializer's failure type that is none of the nine kinds the claim
lists, refuting "and of no other kinds". -/
theorem c8_counterexample_extra_kind :
    Error.isListedKind (Error.badArrayLength 3) = false := rfl

/-- Claim C8 as amended: the deserializer's failure type is a closed set
consisting of the nine listed kinds plus exactly three further kinds — a
static-message kind (`Other`), an expected-list-found-compound kind
carrying the optional current tag (`ExpectedListFoundCompount`), and a
bad-array-length kind carrying the declared count (`BadArrayLength`):
every failure value is of a listed kind or of an extra kind, never both. -/
theorem c8_amended_closed_kind_set :
    ∀ e : Error, e.isListedKind = !e.isExtraKind := by
  intro e; cases e <;> rfl

end Fastnbt

namespace Fastanvil

open Fastnbt (toSigned readBEi32)

/-- Claim C2: the borrowing chunk's `block` is not idempotent — on a chunk
whose section has a palette but no `block_states`, the first
`block(0,0,0)` call returns no block while the second call with the same
arguments returns the palette's first entry, because the first call leaves
a zeroed unpacked-state buffer behind before bailing out. -/
theorem c2_types_block_not_idempotent :
    (tblock sectionNoStatesChunk 0 0 0).1 = none ∧
    (tblock (tblock sectionNoStatesChunk 0 0 0).2 0 0 0).1 = some stoneBlock ∧
    (tblock sectionNoStatesChunk 0 0 0).1 ≠
      (tblock (tblock sectionNoStatesChunk 0 0 0).2 0 0 0).1 := by
  refine ⟨rfl, rfl, by decide⟩

/-- Claim C7: `surface_height` in trust mode aborts on a chunk whose
heightmaps field is present while its section list is absent — the trust
branch unwraps the absent section list and panics instead of resolving to
a result value. -/
theorem c7_trust_mode_panics :
    jsurfaceHeight heightmapsNoSectionsChunk 0 0 HeightMode.trust =
      .error "called Option::unwrap() on a None value" := rfl

theorem lexLtB_irrefl : ∀ l : List Char, lexLtB l l = false
  | [] => rfl
  | a :: as => by simp [lexLtB, lexLtB_irrefl as]

theorem lexLtB_trans :
    ∀ a b c : List Char, lexLtB a b = true → lexLtB b c = true → lexLtB a c = true
  | [], _ :: _, _ :: _, _, _ => rfl
  | [], [], _, h, _ => by simp [lexLtB] at h
  | [], _ :: _, [], _, h2 => by simp [lexLtB] at h2
  | _ :: _, [], _, h, _ => by simp [lexLtB] at h
  | _ :: _, _ :: _, [], _, h2 => by simp [lexLtB] at h2
  | a :: as, b :: bs, c :: cs, h1, h2 => by
      simp only [lexLtB, Bool.or_eq_true, Bool.and_eq_true, decide_eq_true_eq,
        beq_iff_eq] at h1 h2 ⊢
      rcases h1 with h1 | ⟨hab, h1⟩ <;> rcases h2 with h2 | ⟨hbc, h2⟩
      · exact Or.inl (Nat.lt_trans h1 h2)
      · subst hbc; exact Or.inl h1
      · subst hab; exact Or.inl h2
      · subst hab; subst hbc
        exact Or.inr ⟨rfl, lexLtB_trans as bs cs h1 h2⟩

theorem lexLtB_connex :
    ∀ a b : List Char, lexLtB a b = false → lexLtB b a = false → a = b
  | [], [], _, _ => rfl
  | [], _ :: _, h, _ => by simp [lexLtB] at h
  | _ :: _, [], _, h2 => by simp [lexLtB] at h2
  | a :: as, b :: bs, h1, h2 => by
      simp only [lexLtB, Bool.or_eq_false_iff, Bool.and_eq_false_iff,
        decide_eq_false_iff_not, beq_eq_false_iff_ne, ne_eq] at h1 h2
      have hn : a.toNat = b.toNat := by omega
      have hab : a = b := Char.ext (UInt32.ext hn)
      subst hab
      have h1' : lexLtB as bs = false := by
        rcases h1.2 with h | h
        · exact absurd rfl h
        · exact h
      have h2' : lexLtB bs as = false := by
        rcases h2.2 with h | h
        · exact absurd rfl h
        · exact h
      rw [lexLtB_connex as bs h1' h2']

theorem lexLtB_asymm (a b : List Char) (h : lexLtB a b = true) : lexLtB b a = false := by
  by_contra hc
  have hba : lexLtB b a = true := by
    cases hx : lexLtB b a
    · exact absurd hx hc
    · rfl
  have := lexLtB_trans a b a h hba
  rw [lexLtB_irrefl a] at this
  exact Bool.noConfusion this

theorem strLtB_asymm (a b : String) (h : strLtB a b = true) : strLtB b a = false :=
  lexLtB_asymm a.data b.data h

theorem strLtB_connex (a b : String) (h1 : strLtB a b = false)
    (h2 : strLtB b a = false) : a = b :=
  String.ext (lexLtB_connex a.data b.data h1 h2)

theorem strLeB_refl (a : String) : strLeB a a = true := by
  simp [strLeB, strLtB, lexLtB_irrefl]

theorem strLtB_le (a b : String) (h : strLtB a b = true) : strLeB a b = true := by
  simp [strLeB, strLtB_asymm a b h]

theorem strLeB_trans (a b c : String) (h1 : strLeB a b = true)
    (h2 : strLeB b c = true) : strLeB a c = true := by
  simp only [strLeB, Bool.not_eq_true'] at h1 h2 ⊢
  by_contra hc
  have hca : strLtB c a = true := by
    cases hx : strLtB c a
    · exact absurd hx hc
    · rfl
  cases hx : strLtB a b with
  | true =>
      have hcb : strLtB c b = true := lexLtB_trans c.data a.data b.data hca hx
      rw [h2] at hcb
      exact Bool.noConfusion hcb
  | false =>
      have hab : a = b := strLtB_connex a b hx h1
      subst hab
      rw [h2] at hca
      exact Bool.noConfusion hca

theorem pairLeB_trans (p q r : String × String) (h1 : pairLeB p q = true)
    (h2 : pairLeB q r = true) : pairLeB p r = true := by
  simp only [pairLeB, Bool.or_eq_true, Bool.and_eq_true, beq_iff_eq] at h1 h2 ⊢
  rcases h1 with h1 | ⟨he1, hl1⟩ <;> rcases h2 with h2 | ⟨he2, hl2⟩
  · exact Or.inl (lexLtB_trans _ _ _ h1 h2)
  · rw [← he2]; exact Or.inl h1
  · rw [he1]; exact Or.inl h2
  · exact Or.inr ⟨he1.trans he2, strLeB_trans _ _ _ hl1 hl2⟩

theorem pairLeB_total (p q : String × String) :
    (pairLeB p q || pairLeB q p) = true := by
  simp only [pairLeB, Bool.or_eq_true, Bool.and_eq_true, beq_iff_eq]
  cases h1 : strLtB p.1 q.1 with
  | true => exact Or.inl (Or.inl rfl)
  | false =>
    cases h2 : strLtB q.1 p.1 with
    | true => exact Or.inr (Or.inl rfl)
    | false =>
      have he : p.1 = q.1 := strLtB_connex _ _ h1 h2
      cases h3 : strLtB q.2 p.2 with
      | true =>
          exact Or.inr (Or.inr ⟨he.symm, by simp [strLeB, strLtB_asymm _ _ h3]⟩)
      | false => exact Or.inl (Or.inr ⟨he, by simp [strLeB, h3]⟩)

theorem pairLeB_key_le (p q : String × String) (h : pairLeB p q = true) :
    strLeB p.1 q.1 = true := by
  simp only [pairLeB, Bool.or_eq_true, Bool.and_eq_true, beq_iff_eq] at h
  rcases h with h | ⟨he, _⟩
  · exact strLtB_le _ _ h
  · rw [he]; exact strLeB_refl _

/-- Claim C9: `encoded_description` returns the name, then `|`, then the
`key=value` pairs joined by `,`, with the rendered property pairs in
sorted order (in particular with keys in non-decreasing lexicographic
order) and the `waterlogged` property excluded; for the descriptor
`minecraft:door` with properties `{facing: north, waterlogged: true}` it
yields exactly `"minecraft:door|facing=north"`. -/
theorem c9_encoded_description :
    (∀ b : Block, List.Pairwise (fun p q : String × String => pairLeB p q = true)
        (encodedProps b)) ∧
    (∀ b : Block, List.Pairwise (fun p q : String × String => strLeB p.1 q.1 = true)
        (encodedProps b)) ∧
    (∀ b : Block, ∀ p ∈ encodedProps b, p.1 ≠ "waterlogged") ∧
    (∀ b : Block, encoded_description b =
        b.name ++ "|" ++ String.intercalate "," ((encodedProps b).map renderProp)) ∧
    encoded_description doorBlock = "minecraft:door|facing=north" := by
  have hsorted : ∀ b : Block,
      List.Pairwise (fun p q : String × String => pairLeB p q = true) (encodedProps b) :=
    fun b => List.sorted_mergeSort pairLeB_trans pairLeB_total _
  refine ⟨hsorted, fun b => (hsorted b).imp (fun h => pairLeB_key_le _ _ h),
    fun b p hp => ?_, fun b => rfl, ?_⟩
  · have hp' := List.mem_mergeSort.mp hp
    have := List.of_mem_filter hp'
    simpa using this
  · show encoded_description doorBlock = "minecraft:door|facing=north"
    have hfilter : (doorBlock.properties.filter (fun p => !(p.1 == "waterlogged"))) =
        [("facing", "north")] := by decide
    rw [encoded_description, encodedProps, hfilter, List.mergeSort_singleton]
    decide

/-- Claim C4 counterexample: on the borrowing chunk, the section containing
`y = 0` exists and carries no packed block data, yet `block(0,0,0)`
returns no block, not the fixed air block. -/
theorem c4_counterexample_no_air_sentinel :
    (tGetSectionForY sectionNoStatesChunk 0).1 = some 0 ∧
    ((sectionNoStatesChunk.level.sections.getD []).get? 0).map TSection.block_states =
      some none ∧
    (tblock sectionNoStatesChunk 0 0 0).1 = none ∧
    (tblock sectionNoStatesChunk 0 0 0).1 ≠ some AIR :=
  ⟨rfl, rfl, rfl, by decide⟩

/-- Claim C4 as amended: on the pre-1.18 `JavaChunk`, a found section with
no packed data yields the fixed air block without consulting the palette,
and a section-lookup or palette-index miss yields no block, never an
error; the borrowing `types.rs` chunk instead yields no block (not air)
when the found section carries no packed data and its unpacked cache is
still empty. -/
theorem c4_amended_air_and_misses :
    (∀ (c : JavaChunk) (x : Nat) (y : Int) (z : Nat) (tower : SectionTower)
        (sec : P18Section),
        c.level.sections = some tower → tower.get_section_for_y y = some sec →
        sec.block_states = none → jblock c x y z = some AIR) ∧
    (∀ (c : JavaChunk) (x : Nat) (y : Int) (z : Nat),
        c.level.sections = none → jblock c x y z = none) ∧
    (∀ (c : JavaChunk) (x : Nat) (y : Int) (z : Nat) (tower : SectionTower),
        c.level.sections = some tower → tower.get_section_for_y y = none →
        jblock c x y z = none) ∧
    (∀ (c : JavaChunk) (x : Nat) (y : Int) (z : Nat) (tower : SectionTower)
        (sec : P18Section) (bs : P18Blockstates),
        c.level.sections = some tower → tower.get_section_for_y y = some sec →
        sec.block_states = some bs →
        sec.palette.length ≤ bs.state x (y - sec.y * 16).toNat z sec.palette.length →
        jblock c x y z = none) ∧
    (∀ (c : TChunk) (x y z : Nat) (si : Nat) (sec : TSection),
        (tGetSectionForY c y).1 = some si →
        ((tGetSectionForY c y).2.level.sections.getD []).get? si = some sec →
        sec.unpacked_states = none → sec.block_states = none →
        (tblock c x y z).1 = none) := by
  refine ⟨?_, ?_, ?_, ?_, ?_⟩
  · intro c x y z tower sec hs hf hbs
    simp [jblock, hs, hf, hbs]
  · intro c x y z hs
    simp [jblock, hs]
  · intro c x y z tower hs hf
    simp [jblock, hs, hf]
  · intro c x y z tower sec bs hs hf hbs hlen
    simp only [jblock, hs, hf, hbs]
    exact List.get?_eq_none.mpr hlen
  · intro c x y z si sec h1 h2 hu hbs
    rcases hE : tGetSectionForY c y with ⟨r, c2⟩
    rw [hE] at h1 h2
    simp only at h1 h2
    subst h1
    simp only [tblock, hE, h2, hu, hbs]

/-- Claim C5 counterexample: on a chunk whose only section spans world-ys
`[-16, 0)` and is filled with stone, calculate-mode `surface_height(0,0)`
returns 0, while the claim's top-down scan of the chunk's vertical span
finds the stone at world-y `-1` and demands `-1`. -/
theorem unpackBlockstates_getD (bits : Nat) (words : List Nat) (i : Nat)
    (h : i < 4096) :
    (unpackBlockstates bits words).getD i 0 = fieldAt words bits i := by
  simp [unpackBlockstates, List.getD_eq_getElem?_getD, List.getElem?_map,
    List.getElem?_range h]

theorem negativeSpanChunk_stone_at_top :
    jblock negativeSpanChunk 0 (-1) 0 = some stoneBlock := by
  have hfd : Int.fdiv (-1) 16 = (-1 : Int) := by decide
  have hst : P18Blockstates.state ⟨false, List.replicate 4096 0, []⟩ 0 15 0 1 = 0 := by
    unfold P18Blockstates.state
    simp only [Bool.false_eq_true, if_false]
    rw [unpackBlockstates_getD _ _ _ (by norm_num)]
    decide
  have hsec : SectionTower.get_section_for_y
      ⟨[⟨-1, some ⟨false, List.replicate 4096 0, []⟩, [stoneBlock]⟩]⟩ (-1) =
      some ⟨-1, some ⟨false, List.replicate 4096 0, []⟩, [stoneBlock]⟩ := by
    apply List.find?_cons_of_pos
    simp only [P18Section.is_terminator, List.isEmpty_cons, Bool.false_and,
      Bool.not_false, Bool.true_and, hfd, beq_self_eq_true]
  show jblock negativeSpanChunk 0 (-1) 0 = some stoneBlock
  unfold jblock negativeSpanChunk
  simp only []
  rw [hsec]
  simp only []
  rw [show ((-1 : Int) - (-1) * 16).toNat = 15 from by decide,
    show ([stoneBlock] : List Block).length = 1 from rfl, hst]
  rfl

set_option maxRecDepth 4000 in
theorem c5_counterexample_negative_span :
    (jsurfaceHeight negativeSpanChunk 0 0 HeightMode.calculate).toOption.map Prod.fst =
      some 0 ∧
    claimCalcHeight negativeSpanChunk 0 0 = -1 ∧
    (0 : Int) ≠ -1 := by
  refine ⟨by decide, ?_, by decide⟩
  have hr : jyRange negativeSpanChunk = (-16, 0) := by decide
  have hrev : (intList (-16 : Int) 0).reverse =
      [-1, -2, -3, -4, -5, -6, -7, -8, -9, -10, -11, -12, -13, -14, -15, -16] := by
    decide
  have hhit : blockHit negativeSpanChunk 0 0 (-1) = true := by
    unfold blockHit
    rw [negativeSpanChunk_stone_at_top]
    decide
  unfold claimCalcHeight
  rw [hr]
  simp only []
  rw [hrev, List.find?_cons_of_pos _ hhit]

/-- Claim C5 as amended: per column, the calculate scan queries the blocks
at world-ys `y_max - y_min - 1, ..., 1, 0` — the chunk's vertical span
relocated to start at world-y 0, coinciding with the span only when
`y_min = 0` — and records one above the first queried world-y whose block
exists and is not air-like, 0 when none is. -/
theorem c5_amended_shifted_scan (c : JavaChunk) (x z : Nat) :
    scanColumn c x z = amendedColumnHeight c x z := by
  unfold scanColumn amendedColumnHeight intList
  rw [List.find?_map, List.find?_map]
  have hfun : ((fun i => surfaceHit c x z ((jyRange c).2 - i)) ∘
      fun k : Nat => (jyRange c).1 + (k : Int)) =
      ((fun y => blockHit c x z y) ∘
      fun k : Nat => (jyRange c).2 - (jyRange c).1 - 1 - (k : Int)) := by
    funext k
    simp only [Function.comp_apply, surfaceHit]
    congr 1
    omega
  rw [hfun]
  cases hf : List.find?
      ((fun y => blockHit c x z y) ∘
        fun k : Nat => (jyRange c).2 - (jyRange c).1 - 1 - (k : Int))
      (List.range ((jyRange c).2 - (jyRange c).1).toNat) with
  | none => simp [hf]
  | some k =>
      simp only [hf, Option.map_some']
      omega

/-- Claim C6 counterexample: with the 4096-byte cube-layout biome buffer
whose cube 0 holds code 1 and cube 16 holds code 2, the byte-stream
variant reads code 1 for `(x, y, z) = (0, 4, 0)` — it ignores y — while
the claim's y-dependent address selects cube 16 and demands code 2. -/
theorem c6_counterexample_byte_stream_ignores_y :
    tbiomeOf cubeBiomeChunk 0 4 0 = some 1 ∧
    claimByteStreamBiome cubeBiomeBytes 0 4 0 = some 2 ∧
    tbiomeOf cubeBiomeChunk 0 4 0 ≠ claimByteStreamBiome cubeBiomeBytes 0 4 0 := by
  have hlen : cubeBiomeBytes.length = 1024 * 4 := by
    simp only [cubeBiomeBytes, List.length_append, List.length_replicate,
      List.length_cons, List.length_nil]
  have h1 : tbiomeOf cubeBiomeChunk 0 4 0 = some 1 := by
    unfold tbiomeOf cubeBiomeChunk
    simp only []
    rw [if_pos hlen]
    rw [show 4 * ((0 / 4) * 4 + 0 / 4) = 0 from rfl, List.drop_zero, cubeBiomeBytes]
    simp only [List.append_assoc, List.cons_append, List.nil_append, readBEi32]
    rw [show toSigned 32 (((0 * 256 + 0) * 256 + 0) * 256 + 1) = 1 from by decide]
    rfl
  have h2 : claimByteStreamBiome cubeBiomeBytes 0 4 0 = some 2 := by
    unfold claimByteStreamBiome
    rw [show 4 * ((0 / 4) * 4 + 0 / 4 + 4 / 4 * 16) = 64 from rfl]
    rw [show cubeBiomeBytes.drop 64 = [0, 0, 0, 2] ++ List.replicate 4028 0 from by
      rw [cubeBiomeBytes]
      exact List.drop_left' (by simp only [List.length_append, List.length_replicate,
        List.length_cons, List.length_nil])]
    simp only [List.cons_append, List.nil_append, readBEi32]
    rw [show toSigned 32 (((0 * 256 + 0) * 256 + 0) * 256 + 2) = 2 from by decide]
    rfl
  exact ⟨h1, h2, by rw [h1, h2]; decide⟩

/-- Claim C6 as amended: the pre-decoded-array variant (pre-1.18 chunk)
does use the y-dependent cube address
`(z/4)*4 + (x/4) + (y_shifted/4)*16` with y clamped into the chunk's
vertical span and shifted by its start; the length-4096 byte-stream
variant of the borrowing chunk ignores y entirely, so its result is
independent of the queried y. -/
theorem c6_amended_addressing :
    (∀ (c : TChunk) (x y y' z : Nat), tbiomeOf c x y z = tbiomeOf c x y' z) ∧
    (∀ (c : JavaChunk) (x : Nat) (y : Int) (z : Nat) (arr : List Int),
        c.level.biomes = some arr → arr.length ≠ 16 * 16 →
        jbiome c x y z =
          (arr.get? ((z / 4) * 4 + x / 4 +
            ((clampInt y (jyRange c).1 ((jyRange c).2 - 1) - (jyRange c).1).toNat / 4)
              * 16)).bind biomeTryFrom) := by
  constructor
  · intro c x y y' z
    rfl
  · intro c x y z arr hb hlen
    simp [jbiome, hb, hlen]

theorem recalculateHeightmap_lazy_isSome (c : JavaChunk) (m : HeightMode)
    (c' : JavaChunk) (h : recalculateHeightmap c m = .ok c') :
    c'.level.lazy_heightmap.isSome = true := by
  cases m with
  | trust =>
      simp only [recalculateHeightmap] at h
      cases hmb : c.level.heightmaps.bind (fun hm => hm.motion_blocking) with
      | some hm =>
          rw [hmb] at h
          cases hs : c.level.sections with
          | none =>
              rw [hs] at h
              exact Except.noConfusion h
          | some tower =>
              rw [hs] at h
              rw [Except.ok.injEq] at h
              rw [← h]
              rfl
      | none =>
          rw [hmb] at h
          rw [Except.ok.injEq] at h
          rw [← h]
          rfl
  | calculate =>
      simp only [recalculateHeightmap] at h
      rw [Except.ok.injEq] at h
      rw [← h]
      rfl

/-- Claim C10: after the first successful `surface_height` call the lazy
height-map cache is populated, and every call on a chunk with a populated
cache returns that cached map's entry for `(x, z)` and leaves the chunk
unchanged, whatever mode it passes: the mode of later calls is ignored. -/
theorem c10_cached_heightmap_ignores_mode :
    (∀ (c : JavaChunk) (x z : Nat) (m : HeightMode) (h : Int) (c' : JavaChunk),
        jsurfaceHeight c x z m = .ok (h, c') →
        c'.level.lazy_heightmap.isSome = true) ∧
    (∀ (c : JavaChunk) (hm : List Int) (x z : Nat) (m : HeightMode),
        c.level.lazy_heightmap = some hm →
        jsurfaceHeight c x z m = .ok (hm.getD (z * 16 + x) 0, c)) := by
  constructor
  · intro c x z m h c' heq
    unfold jsurfaceHeight at heq
    cases hlz : c.level.lazy_heightmap with
    | some hmv =>
        rw [hlz] at heq
        simp [Bind.bind, Except.bind, hlz] at heq
        rcases heq with ⟨-, rfl⟩
        simp [hlz]
    | none =>
        rw [hlz] at heq
        simp only [Option.isNone_none, if_true] at heq
        cases hr : recalculateHeightmap c m with
        | error e =>
            rw [hr] at heq
            simp [Bind.bind, Except.bind] at heq
        | ok c2 =>
            rw [hr] at heq
            have hsome := recalculateHeightmap_lazy_isSome c m c2 hr
            cases hl2 : c2.level.lazy_heightmap with
            | none =>
                rw [hl2] at hsome
                exact Bool.noConfusion hsome
            | some m2 =>
                simp [Bind.bind, Except.bind, hl2] at heq
                rcases heq with ⟨-, rfl⟩
                simp [hl2]
  · intro c hm x z m hlz
    simp [jsurfaceHeight, hlz, Bind.bind, Except.bind]

end Fastanvil
